import Mathlib

/-!
Verification development for the DTpy diffusion-tensor library.

The Python source is shallowly embedded: pure numeric code is translated to
Lean functions over `ℚ` (exact arithmetic standing in for IEEE floats) and
over `ℝ` where transcendental functions (`sqrt`, `acos`) appear; code that
raises an exception is modelled with `Option` / `Except`.
-/

namespace DTpy

/-- `Vector3` from `mathematics.py`: a plain record of three components.
Note: the Python dataclass defines no methods beyond construction. -/
structure Vector3 where
  x : ℚ
  y : ℚ
  z : ℚ
deriving DecidableEq, Repr

/-- `Tensor3.tensor` after `__post_init__`: a 3x3 array stored row-major,
i.e. exactly 9 elements. -/
structure Tensor3 where
  elems : List ℚ
  len9 : elems.length = 9
deriving DecidableEq

/-- `Tensor3.__post_init__` / `np.reshape(self.tensor, (3, 3))`:
reshaping a flat buffer to shape (3,3) succeeds iff it holds exactly 9
elements; otherwise `np.reshape` raises `ValueError`, modelled as `none`.
A nested 3x3 input is passed as its row-major flattening. -/
def Tensor3.ofData (l : List ℚ) : Option Tensor3 :=
  if h : l.length = 9 then some ⟨l, h⟩ else none

/- ### Eigendecomposition sorting step (`Tensor3._eigendecomposition`)

`np.linalg.eig` is an external solver whose output order is unspecified;
we model its result as an arbitrary assignment `eVal : Fin 3 → ℚ` of
eigenvalues together with `eVec : Fin 3 → Vector3`, the corresponding
eigenvector columns. The code then computes
`ascending = np.argsort(eVal)`, `descending = ascending[::-1]`, and applies
this single index permutation to both the eigenvalue vector and the
eigenvector columns. -/

/-- `np.argsort(eVal)`: a permutation of the indices `[0, 1, 2]` that sorts
the eigenvalues ascending by raw value. -/
def argsortIdx (eVal : Fin 3 → ℚ) : List (Fin 3) :=
  List.insertionSort (fun i j => eVal i ≤ eVal j) [0, 1, 2]

/-- `ascending[::-1]`: the reversed (descending) index permutation. -/
def descendingIdx (eVal : Fin 3 → ℚ) : List (Fin 3) :=
  (argsortIdx eVal).reverse

/-- `eVal[descending]`, exposed as the `EigenValues` property. -/
def EigenValues (eVal : Fin 3 → ℚ) : List ℚ :=
  (descendingIdx eVal).map eVal

/-- `eVec[:, descending]`, exposed as the `EigenVectors` property
(each column wrapped as a `Vector3`). -/
def EigenVectors (eVal : Fin 3 → ℚ) (eVec : Fin 3 → Vector3) : List Vector3 :=
  (descendingIdx eVal).map eVec

/-- `DiffusionTensor.MD`: `sum(self.EigenValues) / 3`. -/
def MD (eVal : Fin 3 → ℚ) : ℚ :=
  (EigenValues eVal).sum / 3

/- ### Derived scalar metrics over the eigenvalue triple -/

/-- Mean of the eigenvalue triple `(L1 + L2 + L3) / 3` over `ℝ`, used by
`DiffusionTensor.FA` through `self.MD`. -/
noncomputable def MDval (L1 L2 L3 : ℝ) : ℝ := (L1 + L2 + L3) / 3

/-- `DiffusionTensor.FA`:
`sqrt(scale * numerator / denominator)` with `scale = 3/2`,
`numerator = sum((x - MD)^2 for x in EigenValues)` and
`denominator = sum(x^2 for x in EigenValues)`. -/
noncomputable def FA (L1 L2 L3 : ℝ) : ℝ :=
  Real.sqrt (3 / 2 *
    ((L1 - MDval L1 L2 L3) ^ 2 + (L2 - MDval L1 L2 L3) ^ 2 +
      (L3 - MDval L1 L2 L3) ^ 2) /
    (L1 ^ 2 + L2 ^ 2 + L3 ^ 2))

/- ### Statistics layer (`statistics.py`) -/

/-- `DataAnalysis.__post_init__`: raise `TooFewDataPoints(N, N_target)` when
fewer than `minData` points are supplied, carrying the actual and required
counts; otherwise construction succeeds with the data stored. -/
def mkDataAnalysis (data : List α) (minData : ℕ) : Except (ℕ × ℕ) (List α) :=
  if data.length < minData then Except.error (data.length, minData)
  else Except.ok data

/-- `ScalarAnalysis` construction (`_min_data = 2`). -/
def ScalarAnalysis.mk (data : List ℚ) : Except (ℕ × ℕ) (List ℚ) :=
  mkDataAnalysis data 2

/-- `VectorAnalysis` construction (`_min_data = 2`). -/
def VectorAnalysis.mk (data : List Vector3) : Except (ℕ × ℕ) (List Vector3) :=
  mkDataAnalysis data 2

/-- Python's `round`: round half to even (banker's rounding), exact on the
rational model of the float arithmetic. -/
def pyRound (q : ℚ) : ℤ :=
  if q - ⌊q⌋ < 1 / 2 then ⌊q⌋
  else if 1 / 2 < q - ⌊q⌋ then ⌊q⌋ + 1
  else if 2 ∣ ⌊q⌋ then ⌊q⌋ else ⌊q⌋ + 1

/-- Python list indexing `l[i]` with an `int` index: a negative index counts
from the end; an index that is still out of range raises `IndexError`
(modelled as `none`). -/
def pyGet (l : List ℚ) (i : ℤ) : Option ℚ :=
  if 0 ≤ i then l[i.toNat]?
  else if 0 ≤ i + l.length then l[(i + l.length).toNat]? else none

/-- Python's `sorted`: ascending stable sort. -/
def sortedPy (x : List ℚ) : List ℚ :=
  List.insertionSort (fun a b => a ≤ b) x

/-- `idx` in `ci_1sided`: `min(round(ci * N), N - 1)`. -/
def ci1_idx (N : ℕ) (ci : ℚ) : ℤ :=
  min (pyRound (ci * N)) ((N : ℤ) - 1)

/-- `idx_L` in `ci_2sided`: `round(left * N)` with `left = (1 - ci) / 2`. -/
def ci2_idxL (N : ℕ) (ci : ℚ) : ℤ :=
  pyRound ((1 - ci) / 2 * N)

/-- `idx_R` in `ci_2sided`: `min(round(right * N), N - 1)` with
`right = ci + left`. -/
def ci2_idxR (N : ℕ) (ci : ℚ) : ℤ :=
  min (pyRound ((ci + (1 - ci) / 2) * N)) ((N : ℤ) - 1)

/-- `ci_1sided(x, ci)`: the single sorted value at `ci1_idx`. -/
def ci_1sided (x : List ℚ) (ci : ℚ) : Option ℚ :=
  pyGet (sortedPy x) (ci1_idx x.length ci)

/-- `ci_2sided(x, ci)`: the pair of sorted values at `ci2_idxL`, `ci2_idxR`. -/
def ci_2sided (x : List ℚ) (ci : ℚ) : Option (ℚ × ℚ) :=
  match pyGet (sortedPy x) (ci2_idxL x.length ci),
        pyGet (sortedPy x) (ci2_idxR x.length ci) with
  | some a, some b => some (a, b)
  | _, _ => none

/-- `ScalarAnalysis.interval_ci95_2sided`: `ci_2sided(self.data, 0.95)`. -/
def interval_ci95_2sided (data : List ℚ) : Option (ℚ × ℚ) :=
  ci_2sided data (19 / 20)

/-- Modelled from the spec: the dot product of two `Vector3`s,
`x·x + y·y + z·z`. Missing from the source: `mathematics.py`'s `Vector3`
dataclass defines no `dot` method although `statistics.py` calls
`ref.dot(vec)`. -/
def Vector3.dot (a b : Vector3) : ℚ :=
  a.x * b.x + a.y * b.y + a.z * b.z

/-- `smallest_angle_from_ref(vec, ref)`: `acos(abs(ref.dot(vec)))` in
radians, over the spec-modelled dot product. -/
noncomputable def smallest_angle_from_ref (vec ref : Vector3) : ℝ :=
  Real.arccos ((|Vector3.dot ref vec| : ℚ) : ℝ)

/-- Modelled from the spec: `dyadic_tensor(vec)` is the 3x3 outer product
`v·vᵗ` flattened row-major. Missing from the source: the comprehension
`[a * b for a in vec for b in vec]` iterates over a `Vector3`, but the
dataclass defines no iteration; the spec fixes the component order
`(x, y, z)`. -/
def dyadic_tensor (v : Vector3) : List ℚ :=
  [v.x * v.x, v.x * v.y, v.x * v.z,
   v.y * v.x, v.y * v.y, v.y * v.z,
   v.z * v.x, v.z * v.y, v.z * v.z]

/-- Elementwise sum of two flat tensors (numpy array addition). -/
def addLists (a b : List ℚ) : List ℚ :=
  List.zipWith (fun p q => p + q) a b

/-- `VectorAnalysis.mean_dyadic_tensor`: `Tensor3(sum(dyadics) / self.N)`,
the elementwise average of the vectors' dyadic tensors. -/
def mean_dyadic_tensor (data : List Vector3) : Option Tensor3 :=
  Tensor3.ofData
    (((data.map dyadic_tensor).foldl addLists (List.replicate 9 0)).map
      (fun q => q / (data.length : ℚ)))

/-! ### Theorems -/

/-- The descending index permutation is a permutation of `[0, 1, 2]`. -/
theorem descendingIdx_perm (eVal : Fin 3 → ℚ) :
    List.Perm (descendingIdx eVal) [0, 1, 2] :=
  ((argsortIdx eVal).reverse_perm).trans
    (List.perm_insertionSort (fun i j => eVal i ≤ eVal j) [0, 1, 2])

/-- C1: for every eigensolver output (eigenvalues `eVal`, eigenvector
columns `eVec`), the sorted `EigenValues` are in descending order by raw
eigenvalue (so a large negative eigenvalue sorts last), position `i` of
`EigenValues` and of `EigenVectors` comes from the same original eigenpair
(the single index permutation is applied to both), and every original
eigenpair index appears exactly once. -/
theorem C1_eigendecomposition_sorted_paired (eVal : Fin 3 → ℚ)
    (eVec : Fin 3 → Vector3) :
    List.Sorted (fun a b => b ≤ a) (EigenValues eVal) ∧
    List.zip (EigenValues eVal) (EigenVectors eVal eVec) =
      (descendingIdx eVal).map (fun i => (eVal i, eVec i)) ∧
    List.Perm (descendingIdx eVal) [0, 1, 2] := by
  refine ⟨?_, ?_, descendingIdx_perm eVal⟩
  · have hs : List.Sorted (fun i j => eVal i ≤ eVal j) (argsortIdx eVal) := by
      haveI : IsTotal (Fin 3) (fun i j => eVal i ≤ eVal j) :=
        ⟨fun a b => le_total (eVal a) (eVal b)⟩
      haveI : IsTrans (Fin 3) (fun i j => eVal i ≤ eVal j) :=
        ⟨fun a b c hab hbc => le_trans hab hbc⟩
      exact List.sorted_insertionSort _ _
    have hrev : List.Pairwise (fun i j => eVal j ≤ eVal i)
        (descendingIdx eVal) := by
      unfold descendingIdx
      exact List.pairwise_reverse.mpr hs
    unfold EigenValues
    exact List.pairwise_map.mpr hrev
  · unfold EigenValues EigenVectors
    exact List.zip_map' eVal eVec (descendingIdx eVal)

/-- C9: `MD` equals the arithmetic mean of the three eigenvalues produced
by the eigendecomposition, in whatever order the solver reported them. -/
theorem C9_MD_is_mean_of_eigenvalues (eVal : Fin 3 → ℚ) :
    MD eVal = (eVal 0 + eVal 1 + eVal 2) / 3 := by
  have hsum : (EigenValues eVal).sum = ([0, 1, 2].map eVal).sum :=
    ((descendingIdx_perm eVal).map eVal).sum_eq
  unfold MD
  rw [hsum]
  simp
  ring

/-- C2: evaluation of `Tensor3` construction: the 9-element flat input and
the row-major flattening of a nested 3x3 input are accepted, but the
6-element flat input that the constructor docstring promises to accept is
rejected (`np.reshape` raises `ValueError: cannot reshape array of size 6
into shape (3,3)`). -/
theorem C2_construction_eval :
    (Tensor3.ofData [1, 2, 3, 4, 5, 6, 7, 8, 9]).isSome = true ∧
    (Tensor3.ofData
      ([[1, 0, 0], [0, 2, 0], [1/10, 0, 3]] : List (List ℚ)).flatten).isSome
        = true ∧
    (Tensor3.ofData [1, 2, 3, 4, 5, 6]).isSome = false := by
  refine ⟨rfl, rfl, rfl⟩

set_option maxRecDepth 10000 in
/-- C3 counterexample: the two-sided 95% interval on the 100-element sample
`[1, ..., 100]` does not return the values `(3, 98)`. -/
theorem C3_counterexample :
    interval_ci95_2sided ((List.range 100).map (fun n => ((n : ℚ) + 1))) ≠
      some (3, 98) := by with_unfolding_all decide

set_option maxRecDepth 10000 in
/-- C3 (amended): the two-sided 95% interval on `[1, ..., 100]` selects
sorted 0-based indices `round(2.5) = 2` and `min(round(97.5), 99) = 98` and
returns the values 3 and 99 (the value stored at sorted index 98). -/
theorem C3_interval_ci95_at_100 :
    ci2_idxL 100 (19 / 20) = 2 ∧ ci2_idxR 100 (19 / 20) = 98 ∧
    interval_ci95_2sided ((List.range 100).map (fun n => ((n : ℚ) + 1))) =
      some (3, 99) := by with_unfolding_all decide

/-- C4: over the spec-modelled dot product (the source `Vector3` defines no
`dot` method, so the code itself raises `AttributeError` here),
`smallest_angle_from_ref` is `arccos(|dot(ref, vec)|)`, and a vector
parallel or antiparallel to the reference direction yields angle 0. -/
theorem C4_angle_parallel_antiparallel_zero :
    smallest_angle_from_ref ⟨1, 0, 0⟩ ⟨1, 0, 0⟩ = 0 ∧
    smallest_angle_from_ref ⟨-1, 0, 0⟩ ⟨1, 0, 0⟩ = 0 := by
  constructor <;>
  · unfold smallest_angle_from_ref Vector3.dot
    norm_num [Real.arccos_one]

/-- C5: over the spec-modelled component iteration (the source `Vector3` is
not iterable, so the code itself raises `TypeError` here),
`mean_dyadic_tensor` of the three standard basis vectors is the tensor
`diag(1/3, 1/3, 1/3)`. -/
theorem C5_mean_dyadic_of_basis :
    (mean_dyadic_tensor [⟨1, 0, 0⟩, ⟨0, 1, 0⟩, ⟨0, 0, 1⟩]).map Tensor3.elems
      = some [1/3, 0, 0, 0, 1/3, 0, 0, 0, 1/3] := by
  with_unfolding_all decide

/-- C6: constructing a `ScalarAnalysis` or a `VectorAnalysis` with fewer
than 2 data points fails with the too-few-data-points error carrying the
actual count and the required minimum 2; with 2 or more elements
construction succeeds. -/
theorem C6_too_few_data_points (s : List ℚ) (v : List Vector3) :
    (s.length < 2 → ScalarAnalysis.mk s = Except.error (s.length, 2)) ∧
    (2 ≤ s.length → ScalarAnalysis.mk s = Except.ok s) ∧
    (v.length < 2 → VectorAnalysis.mk v = Except.error (v.length, 2)) ∧
    (2 ≤ v.length → VectorAnalysis.mk v = Except.ok v) := by
  refine ⟨fun h => ?_, fun h => ?_, fun h => ?_, fun h => ?_⟩
  · unfold ScalarAnalysis.mk mkDataAnalysis
    rw [if_pos h]
  · unfold ScalarAnalysis.mk mkDataAnalysis
    rw [if_neg (Nat.not_lt.mpr h)]
  · unfold VectorAnalysis.mk mkDataAnalysis
    rw [if_pos h]
  · unfold VectorAnalysis.mk mkDataAnalysis
    rw [if_neg (Nat.not_lt.mpr h)]

/-- C6 witness: 0 scalars and 1 vector fail with counts `(0, 2)` and
`(1, 2)`; two-element inputs construct successfully. -/
theorem C6_witness :
    ScalarAnalysis.mk [] = Except.error (0, 2) ∧
    ScalarAnalysis.mk [1, 2] = Except.ok [1, 2] ∧
    VectorAnalysis.mk [⟨1, 0, 0⟩] = Except.error (1, 2) ∧
    VectorAnalysis.mk [⟨1, 0, 0⟩, ⟨0, 1, 0⟩] =
      Except.ok [⟨1, 0, 0⟩, ⟨0, 1, 0⟩] :=
  ⟨(C6_too_few_data_points [] []).1 (by decide),
   (C6_too_few_data_points [1, 2] []).2.1 (by decide),
   (C6_too_few_data_points [] [⟨1, 0, 0⟩]).2.2.1 (by decide),
   (C6_too_few_data_points [] [⟨1, 0, 0⟩, ⟨0, 1, 0⟩]).2.2.2 (by decide)⟩

/-- C7: `FA` vanishes on an isotropic eigenvalue triple `(k, k, k)` with
`k ≠ 0`, and equals 1 on a fully anisotropic triple `(a, 0, 0)` with
`a > 0`. -/
theorem C7_FA_isotropic_anisotropic :
    (∀ k : ℝ, k ≠ 0 → FA k k k = 0) ∧
    (∀ a : ℝ, 0 < a → FA a 0 0 = 1) := by
  constructor
  · intro k hk
    unfold FA MDval
    rw [show 3 / 2 * ((k - (k + k + k) / 3) ^ 2 + (k - (k + k + k) / 3) ^ 2
        + (k - (k + k + k) / 3) ^ 2) / (k ^ 2 + k ^ 2 + k ^ 2) = 0 by
      rw [show k - (k + k + k) / 3 = 0 by ring]
      ring]
    exact Real.sqrt_zero
  · intro a ha
    have h : FA a 0 0 = Real.sqrt 1 := by
      unfold FA MDval
      rw [show 3 / 2 * ((a - (a + 0 + 0) / 3) ^ 2 + (0 - (a + 0 + 0) / 3) ^ 2
          + (0 - (a + 0 + 0) / 3) ^ 2) / (a ^ 2 + 0 ^ 2 + 0 ^ 2) = 1 by
        field_simp
        ring]
    rw [h, Real.sqrt_one]

/-- C7 witness at `k = 1` and `a = 1`. -/
theorem C7_witness :
    ((1 : ℝ) ≠ 0 ∧ FA 1 1 1 = 0) ∧ ((0 : ℝ) < 1 ∧ FA 1 0 0 = 1) :=
  ⟨⟨one_ne_zero, C7_FA_isotropic_anisotropic.1 1 one_ne_zero⟩,
   ⟨one_pos, C7_FA_isotropic_anisotropic.2 1 one_pos⟩⟩

set_option maxRecDepth 2000 in
/-- C8 counterexample: the tensor `diag(1, -1, 0)` has real eigenvalues, not
all zero; the eigendecomposition sorts them to `[1, 0, -1]`, and on that
triple the code computes `FA = sqrt(3/2) > 1`, outside `[0, 1]`. -/
theorem C8_counterexample :
    EigenValues ![1, -1, 0] = [1, 0, -1] ∧ 1 < FA 1 0 (-1) := by
  constructor
  · with_unfolding_all decide
  · have h : FA 1 0 (-1) = Real.sqrt (3 / 2) := by
      unfold FA MDval
      norm_num
    rw [h]
    rw [show (1 : ℝ) = Real.sqrt 1 from Real.sqrt_one.symm]
    exact Real.sqrt_lt_sqrt (by norm_num) (by norm_num)

/-- C8 (amended): for nonnegative eigenvalues that are not all zero (the
positive-semidefinite case expected of a diffusion tensor), FA lies in
`[0, 1]`; the counterexample shows the bound fails for general real
eigenvalues. -/
theorem C8_FA_unit_interval (L1 L2 L3 : ℝ) (h1 : 0 ≤ L1) (h2 : 0 ≤ L2)
    (h3 : 0 ≤ L3) (hnz : L1 ^ 2 + L2 ^ 2 + L3 ^ 2 ≠ 0) :
    0 ≤ FA L1 L2 L3 ∧ FA L1 L2 L3 ≤ 1 := by
  refine ⟨Real.sqrt_nonneg _, ?_⟩
  have hden : 0 < L1 ^ 2 + L2 ^ 2 + L3 ^ 2 :=
    lt_of_le_of_ne (by positivity) (Ne.symm hnz)
  have harg : 3 / 2 * ((L1 - MDval L1 L2 L3) ^ 2 + (L2 - MDval L1 L2 L3) ^ 2
      + (L3 - MDval L1 L2 L3) ^ 2) / (L1 ^ 2 + L2 ^ 2 + L3 ^ 2) ≤ 1 := by
    rw [div_le_one hden]
    unfold MDval
    nlinarith [mul_nonneg h1 h2, mul_nonneg h1 h3, mul_nonneg h2 h3]
  unfold FA
  calc Real.sqrt (3 / 2 * ((L1 - MDval L1 L2 L3) ^ 2 +
        (L2 - MDval L1 L2 L3) ^ 2 + (L3 - MDval L1 L2 L3) ^ 2) /
        (L1 ^ 2 + L2 ^ 2 + L3 ^ 2)) ≤ Real.sqrt 1 := Real.sqrt_le_sqrt harg
    _ = 1 := Real.sqrt_one

/-- C8 amended-claim witness at eigenvalues `(1, 1, 0)`. -/
theorem C8_witness :
    ((0 : ℝ) ≤ 1 ∧ (0 : ℝ) ≤ 1 ∧ (0 : ℝ) ≤ 0 ∧
      (1 : ℝ) ^ 2 + 1 ^ 2 + 0 ^ 2 ≠ 0) ∧
    (0 ≤ FA 1 1 0 ∧ FA 1 1 0 ≤ 1) :=
  ⟨⟨zero_le_one, zero_le_one, le_refl 0, by norm_num⟩,
   C8_FA_unit_interval 1 1 0 zero_le_one zero_le_one (le_refl 0)
     (by norm_num)⟩

/-! ### Index-safety lemmas for the confidence-interval functions -/

/-- `pyRound` never rounds below the floor. -/
theorem pyRound_ge_floor (q : ℚ) : ⌊q⌋ ≤ pyRound q := by
  unfold pyRound
  split_ifs <;> omega

/-- `pyRound` rounds at most one above the floor. -/
theorem pyRound_le_floor_add_one (q : ℚ) : pyRound q ≤ ⌊q⌋ + 1 := by
  unfold pyRound
  split_ifs <;> omega

/-- `pyRound` of a nonnegative rational is nonnegative. -/
theorem pyRound_nonneg (q : ℚ) (h : 0 ≤ q) : 0 ≤ pyRound q :=
  le_trans (Int.floor_nonneg.mpr h) (pyRound_ge_floor q)

/-- If `q` stays strictly half a unit below the integer `n`, then `pyRound`
stays at most `n - 1`. -/
theorem pyRound_le_of_lt_half (q : ℚ) (n : ℤ) (h : q < (n : ℚ) - 1 / 2) :
    pyRound q ≤ n - 1 := by
  have hfl : ⌊q⌋ < n := Int.floor_lt.mpr (by linarith)
  by_cases hr : q - ⌊q⌋ < 1 / 2
  · unfold pyRound
    rw [if_pos hr]
    omega
  · have hq : (⌊q⌋ : ℚ) + 1 / 2 ≤ q := by linarith
    have hcast : (⌊q⌋ : ℚ) < (n : ℚ) - 1 := by linarith
    have hfl1 : ⌊q⌋ < n - 1 := by
      have hqq : (⌊q⌋ : ℚ) < ((n - 1 : ℤ) : ℚ) := by push_cast; linarith
      exact_mod_cast hqq
    have := pyRound_le_floor_add_one q
    omega

/-- `pyRound` is monotone. -/
theorem pyRound_mono {a b : ℚ} (h : a ≤ b) : pyRound a ≤ pyRound b := by
  rcases lt_or_eq_of_le (Int.floor_mono h) with hf | hf
  · calc pyRound a ≤ ⌊a⌋ + 1 := pyRound_le_floor_add_one a
      _ ≤ ⌊b⌋ := by omega
      _ ≤ pyRound b := pyRound_ge_floor b
  · have hcast : (⌊a⌋ : ℚ) = (⌊b⌋ : ℚ) := by exact_mod_cast hf
    have hr : a - ⌊a⌋ ≤ b - ⌊b⌋ := by rw [← hcast]; linarith
    unfold pyRound
    split_ifs <;> first | omega | (exfalso; linarith)

/-- A nonnegative in-range integer index makes `pyGet` return the list
element at that position. -/
theorem pyGet_eq_get (l : List ℚ) (i : ℤ) (h0 : 0 ≤ i)
    (h1 : i.toNat < l.length) :
    pyGet l i = some (l.get ⟨i.toNat, h1⟩) := by
  unfold pyGet
  rw [if_pos h0, List.get_eq_getElem]
  exact List.getElem?_eq_getElem h1

/-- `sortedPy` produces an ascending-sorted list. -/
theorem sortedPy_sorted (x : List ℚ) :
    List.Sorted (fun a b : ℚ => a ≤ b) (sortedPy x) := by
  haveI : IsTotal ℚ (fun a b : ℚ => a ≤ b) := ⟨fun a b => le_total a b⟩
  haveI : IsTrans ℚ (fun a b : ℚ => a ≤ b) :=
    ⟨fun a b c hab hbc => le_trans hab hbc⟩
  exact List.sorted_insertionSort _ _

/-- `sortedPy` preserves the length. -/
theorem sortedPy_length (x : List ℚ) : (sortedPy x).length = x.length :=
  (List.perm_insertionSort _ _).length_eq

/-- C10: for a nonempty list and a confidence level in `(0, 1)`, the indices
computed in `ci_1sided` and `ci_2sided` lie within `[0, N - 1]`, both
functions return a value (no out-of-bounds access), and the pair returned by
`ci_2sided` is ordered: lower bound at most upper bound. -/
theorem C10_ci_index_safety (x : List ℚ) (ci : ℚ) (hx : x ≠ [])
    (hci0 : 0 < ci) (hci1 : ci < 1) :
    (0 ≤ ci1_idx x.length ci ∧ ci1_idx x.length ci ≤ (x.length : ℤ) - 1) ∧
    (0 ≤ ci2_idxL x.length ci ∧
      ci2_idxL x.length ci ≤ ci2_idxR x.length ci ∧
      ci2_idxR x.length ci ≤ (x.length : ℤ) - 1) ∧
    (ci_1sided x ci).isSome = true ∧
    (∃ a b, ci_2sided x ci = some (a, b) ∧ a ≤ b) := by
  have hN : 1 ≤ x.length := List.length_pos.mpr hx
  have hNq : (1 : ℚ) ≤ (x.length : ℚ) := by exact_mod_cast hN
  have hNq0 : (0 : ℚ) ≤ (x.length : ℚ) := by linarith
  have h1a : 0 ≤ ci1_idx x.length ci := by
    unfold ci1_idx
    exact le_min (pyRound_nonneg _ (mul_nonneg hci0.le hNq0)) (by omega)
  have h1b : ci1_idx x.length ci ≤ (x.length : ℤ) - 1 := min_le_right _ _
  have h2a : 0 ≤ ci2_idxL x.length ci := by
    unfold ci2_idxL
    exact pyRound_nonneg _ (mul_nonneg (by linarith) hNq0)
  have h2c : ci2_idxL x.length ci ≤ (x.length : ℤ) - 1 := by
    unfold ci2_idxL
    refine pyRound_le_of_lt_half _ (x.length : ℤ) ?_
    push_cast
    nlinarith
  have h2b : ci2_idxL x.length ci ≤ ci2_idxR x.length ci := by
    unfold ci2_idxL ci2_idxR
    refine le_min ?_ h2c
    exact pyRound_mono (mul_le_mul_of_nonneg_right (by linarith) hNq0)
  have h2d : ci2_idxR x.length ci ≤ (x.length : ℤ) - 1 := min_le_right _ _
  have h2e : 0 ≤ ci2_idxR x.length ci := le_trans h2a h2b
  have hlen : (sortedPy x).length = x.length := sortedPy_length x
  have hin1 : (ci1_idx x.length ci).toNat < (sortedPy x).length := by
    rw [hlen]; omega
  have hinL : (ci2_idxL x.length ci).toNat < (sortedPy x).length := by
    rw [hlen]; omega
  have hinR : (ci2_idxR x.length ci).toNat < (sortedPy x).length := by
    rw [hlen]; omega
  have hget1 := pyGet_eq_get (sortedPy x) _ h1a hin1
  have hgetL := pyGet_eq_get (sortedPy x) _ h2a hinL
  have hgetR := pyGet_eq_get (sortedPy x) _ h2e hinR
  refine ⟨⟨h1a, h1b⟩, ⟨h2a, h2b, h2d⟩, ?_, ?_⟩
  · unfold ci_1sided
    rw [hget1]
    rfl
  · refine ⟨(sortedPy x).get ⟨(ci2_idxL x.length ci).toNat, hinL⟩,
      (sortedPy x).get ⟨(ci2_idxR x.length ci).toNat, hinR⟩, ?_, ?_⟩
    · unfold ci_2sided
      rw [hgetL, hgetR]
    · haveI : IsRefl ℚ (fun a b : ℚ => a ≤ b) := ⟨fun a => le_refl a⟩
      exact (sortedPy_sorted x).rel_get_of_le (Fin.mk_le_mk.mpr (by omega))

/-- C10 witness at `x = [1, 2]`, `ci = 1/2`. -/
theorem C10_witness :
    (([1, 2] : List ℚ) ≠ [] ∧ (0 : ℚ) < 1 / 2 ∧ (1 : ℚ) / 2 < 1) ∧
    ((0 ≤ ci1_idx ([1, 2] : List ℚ).length (1 / 2) ∧
        ci1_idx ([1, 2] : List ℚ).length (1 / 2) ≤
          ((([1, 2] : List ℚ).length : ℤ) - 1)) ∧
      (0 ≤ ci2_idxL ([1, 2] : List ℚ).length (1 / 2) ∧
        ci2_idxL ([1, 2] : List ℚ).length (1 / 2) ≤
          ci2_idxR ([1, 2] : List ℚ).length (1 / 2) ∧
        ci2_idxR ([1, 2] : List ℚ).length (1 / 2) ≤
          ((([1, 2] : List ℚ).length : ℤ) - 1)) ∧
      (ci_1sided [1, 2] (1 / 2)).isSome = true ∧
      (∃ a b, ci_2sided [1, 2] (1 / 2) = some (a, b) ∧ a ≤ b)) :=
  ⟨⟨by simp, by norm_num, by norm_num⟩,
   C10_ci_index_safety [1, 2] (1 / 2) (by simp) (by norm_num) (by norm_num)⟩

end DTpy
